import Mathlib

/-!
Shallow embedding of the MICT (Mobius Inspired Cyclical Transformation)
cyclical state-machine engine, `class MICT` in `mict-framework.js`.

The engine owns mutable runtime state (stage list, current stage index,
current state value, previous state value, timer handle) and exposes
`nextStage` (advance), `startCycle` / `stopCycle`, `setState`,
`getPreviousState` and `reset`.  Side effects (the `updateUI` observer
callback, the configured `errorHandler`, `console.error` / `console.warn`
diagnostics, and `setInterval` / `clearInterval` timer calls) are embedded
as an explicit list of emitted events: each operation returns the new
engine state together with the events it emitted, in order.

Stage handlers are opaque callables `state -> state`; a JavaScript handler
may also throw, so a handler is embedded as a function into `Except`,
where `Except.error e` models a raised exception with value `e`.
-/

/-- JavaScript runtime values threaded through the engine.  The engine is
generic over state values; we model the value universe shallowly with the
distinguished `undefined` (the "no replacement" sentinel checked by
`newState !== undefined` and the value of a property that was never
assigned) and `null` (the initial `previousState`).  A `promiseObj` stands
for a Promise object: to the synchronous engine code it is just an
ordinary defined value. -/
inductive JSValue where
  | undefined
  | null
  | boolean (b : Bool)
  | num (n : Int)
  | str (s : String)
  | promiseObj (id : Nat)
  deriving DecidableEq

/-- A stage handler: called with the current state, it either returns a
value (possibly `undefined`, JavaScript's implicit return) or throws. -/
abbrev Handler := JSValue → Except JSValue JSValue

/-- Observable side effects of an engine operation, in emission order. -/
inductive Event where
  | updateUI (state : JSValue) (stage : String)
  | errorHandlerCall (err : JSValue) (stage : String) (state : JSValue)
  | consoleError (stage : String) (err : JSValue)
  | warnAlreadyRunning
  | warnNoInterval
  | setIntervalCall (ms : Int)
  | clearIntervalCall

/-- Whether an event is an observer (`updateUI`) invocation. -/
def Event.isUpdateUI : Event → Bool
  | Event.updateUI _ _ => true
  | _ => false

/-- A raw value found in `config.stageFunctions`: either a callable
(`typeof ... === 'function'`) or some non-callable value. -/
inductive StageFnVal where
  | fn (f : Handler)
  | notFn (v : JSValue)

/-- Whether a raw `stageFunctions` value is callable. -/
def StageFnVal.isFn : StageFnVal → Bool
  | StageFnVal.fn _ => true
  | StageFnVal.notFn _ => false

/-- The configuration object passed to the `MICT` constructor.
`stages = none` models `config.stages` not being an array;
`stageFunctions = none` models a falsy `config.stageFunctions` (the
constructor substitutes an empty object); `interval = none` models an
absent `config.interval` (the constructor substitutes `0` via
`config.interval || 0`); `updateUIIsFunction` records whether
`typeof config.updateUI === 'function'`; `errorHandler` records whether a
truthy `config.errorHandler` is present (its behavior is external and
shows up only as emitted `errorHandlerCall` events). -/
structure Config where
  stages : Option (List String)
  initialState : JSValue
  updateUIIsFunction : Bool
  stageFunctions : Option (List (String × StageFnVal))
  interval : Option Int
  errorHandler : Bool

/-- The mutable fields assigned on `this` by the `MICT` constructor.
Note there is deliberately no `initialState` field: the constructor
assigns `this.currentState = config.initialState` but never assigns
`this.initialState`, so the later read `this.initialState` in `reset()`
is a JavaScript property access on a never-assigned property and
evaluates to `undefined`.  The timer handle `intervalId` records the
period of the active `setInterval` timer (`none` = no active timer). -/
structure MICTState where
  stages : List String
  currentState : JSValue
  currentStageIndex : Nat
  stageFunctions : List (String × Handler)
  intervalId : Option Int
  interval : Int
  errorHandler : Bool
  previousState : JSValue

/-- Lookup of `this.stageFunctions[stageName]`.  After construction every
stored entry is a function, hence truthy, so the JavaScript truthiness
test `if (this.stageFunctions[currentStage])` is exactly the success of
this lookup. -/
def lookupFn (fns : List (String × Handler)) (k : String) : Option Handler :=
  (fns.find? (fun p => p.1 == k)).map (fun p => p.2)

/-- `getCurrentStage()`: `this.stages[this.currentStageIndex]`.  For every
reachable engine the index is in range (see the range invariant below), so
the default of `List.getD` is never hit on reachable states. -/
def MICTState.getCurrentStage (s : MICTState) : String :=
  s.stages.getD s.currentStageIndex ""

/-- `getCurrentStageIndex()`. -/
def MICTState.getCurrentStageIndex (s : MICTState) : Nat :=
  s.currentStageIndex

/-- `getPreviousState()`. -/
def MICTState.getPreviousState (s : MICTState) : JSValue :=
  s.previousState

/-- Validation loop of the constructor over `stageFunctions` entries: each
key must be one of `stages` and each value must be a function; the first
violation raises.  On success the surviving entries are the callable
handlers. -/
def validateFns (stages : List String) :
    List (String × StageFnVal) → Except String (List (String × Handler))
  | [] => Except.ok []
  | (k, v) :: rest =>
    if k ∈ stages then
      match v with
      | StageFnVal.fn f =>
        (validateFns stages rest).map (fun l => (k, f) :: l)
      | StageFnVal.notFn _ =>
        Except.error "stageFunctions value must be a function."
    else
      Except.error "Invalid stage name in stageFunctions."

/-- The `MICT` constructor.  `none` as argument models a null / non-object
`config`.  Checks, in source order: config present, `stages` a non-empty
array, `updateUI` a function; then assigns the runtime fields and
validates `stageFunctions`.  A thrown validation error discards the
object, so performing validation before building the record is
observationally equivalent to the source order. -/
def construct : Option Config → Except String MICTState
  | none => Except.error "MICT constructor requires a configuration object."
  | some config =>
    match config.stages with
    | none =>
      Except.error "MICT configuration must include a stages array with at least one stage."
    | some stages =>
      if stages.isEmpty then
        Except.error "MICT configuration must include a stages array with at least one stage."
      else if config.updateUIIsFunction = false then
        Except.error "MICT configuration must include an updateUI function."
      else
        (validateFns stages (config.stageFunctions.getD [])).map (fun fns =>
          { stages := stages
            currentState := config.initialState
            currentStageIndex := 0
            stageFunctions := fns
            intervalId := none
            interval := config.interval.getD 0
            errorHandler := config.errorHandler
            previousState := JSValue.null })

/-- The tail of `nextStage()`: move the index forward modulo the stage
count, then invoke the observer with the current state and the *new*
current stage name. -/
def advanceIndex (s : MICTState) : MICTState × List Event :=
  let s2 := { s with currentStageIndex := (s.currentStageIndex + 1) % s.stages.length }
  (s2, [Event.updateUI s2.currentState s2.getCurrentStage])

/-- `nextStage()` (the advance operation).  If a handler exists for the
current stage it is called with the current state inside `try`: on a
throw, the configured `errorHandler` is called with
`(error, currentStage, currentState)` (or `console.error` is used) and the
method returns without advancing — the exception is swallowed, which is
why this embedding is a total function with no error outcome.  On a normal
return, `previousState` is set to the pre-call state, the state is
replaced when the returned value is not `undefined`, and then the index
advances and the observer fires.  With no handler the index advances
directly. -/
def nextStage (s : MICTState) : MICTState × List Event :=
  let currentStage := s.getCurrentStage
  match lookupFn s.stageFunctions currentStage with
  | none => advanceIndex s
  | some f =>
    match f s.currentState with
    | Except.error err =>
      (s, if s.errorHandler then
            [Event.errorHandlerCall err currentStage s.currentState]
          else
            [Event.consoleError currentStage err])
    | Except.ok newState =>
      advanceIndex { s with
        previousState := s.currentState
        currentState := if newState ≠ JSValue.undefined then newState else s.currentState }

/-- `stopCycle()`: clears the active timer if any; idempotent. -/
def stopCycle (s : MICTState) : MICTState × List Event :=
  match s.intervalId with
  | some _ => ({ s with intervalId := none }, [Event.clearIntervalCall])
  | none => (s, [])

/-- JavaScript `a || b` on the interval argument: `undefined` and `0` are
falsy and fall through to the default; every other integer (negative ones
included) is truthy and wins. -/
def jsOrInterval (o : Option Int) (d : Int) : Int :=
  match o with
  | some v => if v = 0 then d else v
  | none => d

/-- `startCycle(interval)`: if a timer is active, warn and stop it first;
resolve the interval as `interval || this.interval`; if the resolved
interval is falsy (`0` / absent), warn and refuse to start; otherwise
create the timer. -/
def startCycle (s : MICTState) (interval : Option Int) : MICTState × List Event :=
  let (s1, evs1) :=
    if s.intervalId.isSome then
      let (s2, evs2) := stopCycle s
      (s2, Event.warnAlreadyRunning :: evs2)
    else
      (s, [])
  let intervalToUse := jsOrInterval interval s1.interval
  if intervalToUse = 0 then
    (s1, evs1 ++ [Event.warnNoInterval])
  else
    ({ s1 with intervalId := some intervalToUse },
     evs1 ++ [Event.setIntervalCall intervalToUse])

/-- `setState(newState)`: unconditionally replace the current state and
invoke the observer with the new state and the current stage. -/
def setState (s : MICTState) (newState : JSValue) : MICTState × List Event :=
  let s2 := { s with currentState := newState }
  (s2, [Event.updateUI s2.currentState s2.getCurrentStage])

/-- `reset()`: sets the index to `0`, sets `currentState` to
`this.initialState` — a property no method of the class ever assigns, so
the read evaluates to `undefined` — clears `previousState` to `null`,
stops any running timer, and invokes the observer. -/
def reset (s : MICTState) : MICTState × List Event :=
  let s1 := { s with
    currentStageIndex := 0
    currentState := JSValue.undefined
    previousState := JSValue.null }
  let (s2, evs2) := stopCycle s1
  (s2, evs2 ++ [Event.updateUI s2.currentState s2.getCurrentStage])

/-- One externally driven engine operation. -/
inductive Op where
  | advance
  | setStateOp (v : JSValue)
  | resetOp

/-- Apply one operation, discarding the emitted events. -/
def applyOp (s : MICTState) : Op → MICTState
  | Op.advance => (nextStage s).1
  | Op.setStateOp v => (setState s v).1
  | Op.resetOp => (reset s).1

/-- Run a finite sequence of operations. -/
def runOps (s : MICTState) : List Op → MICTState
  | [] => s
  | op :: rest => runOps (applyOp s op) rest

/-- Repeatedly call `nextStage`, accumulating the emitted events. -/
def iterateAdvance (s : MICTState) : Nat → MICTState × List Event
  | 0 => (s, [])
  | n + 1 =>
    let (s1, evs1) := nextStage s
    let (s2, evs2) := iterateAdvance s1 n
    (s2, evs1 ++ evs2)

/-- Concrete configuration with a distinguishable initial state and no
stage handlers. -/
def cfgC1 : Config :=
  { stages := some ["Mapping", "Iteration", "Checking", "Transformation"]
    initialState := JSValue.num 42
    updateUIIsFunction := true
    stageFunctions := none
    interval := none
    errorHandler := false }

/-- The engine produced by constructing from `cfgC1`. -/
def engineC1 : MICTState :=
  { stages := ["Mapping", "Iteration", "Checking", "Transformation"]
    currentState := JSValue.num 42
    currentStageIndex := 0
    stageFunctions := []
    intervalId := none
    interval := 0
    errorHandler := false
    previousState := JSValue.null }

/-- A handler that always throws. -/
def failHandler : Handler := fun _ => Except.error (JSValue.str "boom")

/-- Engine parked on stage `Iteration`, whose handler always throws; an
error handler is configured. -/
def engFail : MICTState :=
  { stages := ["Mapping", "Iteration", "Checking", "Transformation"]
    currentState := JSValue.num 0
    currentStageIndex := 1
    stageFunctions := [("Iteration", failHandler)]
    intervalId := none
    interval := 0
    errorHandler := true
    previousState := JSValue.null }

/-- A handler that returns a defined replacement value. -/
def okHandler : Handler := fun _ => Except.ok (JSValue.num 7)

/-- Engine whose current stage `Mapping` has a handler returning `7`. -/
def engOk : MICTState :=
  { stages := ["Mapping", "Iteration"]
    currentState := JSValue.num 0
    currentStageIndex := 0
    stageFunctions := [("Mapping", okHandler)]
    intervalId := none
    interval := 0
    errorHandler := false
    previousState := JSValue.null }

/-- Engine whose current stage has no handler. -/
def engNoHandler : MICTState :=
  { stages := ["Mapping", "Iteration"]
    currentState := JSValue.num 5
    currentStageIndex := 0
    stageFunctions := [("Iteration", okHandler)]
    intervalId := none
    interval := 0
    errorHandler := false
    previousState := JSValue.num 4 }

/-- A handler that returns a Promise object (models
`async` work: the call returns immediately with a pending promise). -/
def promiseHandler : Handler := fun _ => Except.ok (JSValue.promiseObj 0)

/-- Engine whose current stage handler returns a pending Promise. -/
def engPromise : MICTState :=
  { stages := ["Mapping", "Iteration"]
    currentState := JSValue.num 0
    currentStageIndex := 0
    stageFunctions := [("Mapping", promiseHandler)]
    intervalId := none
    interval := 0
    errorHandler := true
    previousState := JSValue.null }

/-- Idle engine with default interval `0` and no active timer. -/
def engIdle : MICTState :=
  { stages := ["Mapping"]
    currentState := JSValue.num 0
    currentStageIndex := 0
    stageFunctions := []
    intervalId := none
    interval := 0
    errorHandler := false
    previousState := JSValue.null }

/-- Engine with an active timer of period `100`. -/
def engRunning : MICTState :=
  { stages := ["Mapping"]
    currentState := JSValue.num 0
    currentStageIndex := 0
    stageFunctions := []
    intervalId := some 100
    interval := 0
    errorHandler := false
    previousState := JSValue.null }

/-- Concrete valid configuration used to exercise the constructor. -/
def cfgC4 : Config :=
  { stages := some ["Mapping", "Iteration"]
    initialState := JSValue.str "start"
    updateUIIsFunction := true
    stageFunctions := some []
    interval := some 250
    errorHandler := true }

/-- The engine produced by constructing from `cfgC4`. -/
def engineC4 : MICTState :=
  { stages := ["Mapping", "Iteration"]
    currentState := JSValue.str "start"
    currentStageIndex := 0
    stageFunctions := []
    intervalId := none
    interval := 250
    errorHandler := true
    previousState := JSValue.null }

/-- Concrete valid configuration for the index-range invariant. -/
def cfgC6 : Config :=
  { stages := some ["Mapping", "Iteration", "Checking"]
    initialState := JSValue.num 0
    updateUIIsFunction := true
    stageFunctions := none
    interval := none
    errorHandler := false }

/-- The engine produced by constructing from `cfgC6`. -/
def engineC6 : MICTState :=
  { stages := ["Mapping", "Iteration", "Checking"]
    currentState := JSValue.num 0
    currentStageIndex := 0
    stageFunctions := []
    intervalId := none
    interval := 0
    errorHandler := false
    previousState := JSValue.null }

/-- A concrete operation sequence mixing all three operations. -/
def opsC6 : List Op :=
  [Op.advance, Op.advance, Op.setStateOp (JSValue.num 9), Op.advance,
   Op.advance, Op.resetOp, Op.advance]

/-- The validity conditions on a raw configuration, written from the
specification of the configuration validator: the configuration is
present, `stages` is a non-empty array, the observer is callable, every
`stageFunctions` key names a member of `stages` and every value is
callable.  Compared against `construct` for the validation claim. -/
def specValidConfig : Option Config → Prop
  | none => False
  | some cfg =>
    ∃ l, cfg.stages = some l ∧ l ≠ [] ∧
      cfg.updateUIIsFunction = true ∧
      ∀ p ∈ cfg.stageFunctions.getD [], p.1 ∈ l ∧ p.2.isFn = true

theorem nextStage_error_eq (s : MICTState) (f : Handler) (e : JSValue)
    (hf : lookupFn s.stageFunctions s.getCurrentStage = some f)
    (he : f s.currentState = Except.error e) :
    nextStage s = (s, if s.errorHandler then
        [Event.errorHandlerCall e s.getCurrentStage s.currentState]
      else
        [Event.consoleError s.getCurrentStage e]) := by
  simp only [nextStage, hf, he]

theorem nextStage_ok_eq (s : MICTState) (f : Handler) (v : JSValue)
    (hf : lookupFn s.stageFunctions s.getCurrentStage = some f)
    (hv : f s.currentState = Except.ok v) :
    nextStage s = advanceIndex { s with
      previousState := s.currentState
      currentState := if v ≠ JSValue.undefined then v else s.currentState } := by
  simp only [nextStage, hf, hv]

theorem nextStage_none_eq (s : MICTState)
    (hf : lookupFn s.stageFunctions s.getCurrentStage = none) :
    nextStage s = advanceIndex s := by
  simp only [nextStage, hf]

theorem exceptMap_ok_iff {α β γ : Type} (g : α → β) (e : Except γ α) (y : β) :
    Except.map g e = Except.ok y ↔ ∃ x, e = Except.ok x ∧ y = g x := by
  cases e with
  | error msg => simp [Except.map]
  | ok x =>
    simp only [Except.map, Except.ok.injEq]
    constructor
    · intro h
      exact ⟨x, rfl, h.symm⟩
    · rintro ⟨x2, hx2, hy⟩
      cases hx2
      exact hy.symm

theorem validateFns_ok_iff (stages : List String)
    (fns : List (String × StageFnVal)) :
    (∃ l, validateFns stages fns = Except.ok l) ↔
      ∀ p ∈ fns, p.1 ∈ stages ∧ p.2.isFn = true := by
  induction fns with
  | nil => simp [validateFns]
  | cons hd tl ih =>
    obtain ⟨k, v⟩ := hd
    by_cases hk : k ∈ stages
    · cases v with
      | fn f =>
        simp only [validateFns, if_pos hk]
        constructor
        · rintro ⟨l, hl⟩
          obtain ⟨l2, hl2, -⟩ := (exceptMap_ok_iff _ _ _).mp hl
          intro p hp
          rcases List.mem_cons.mp hp with hp | hp
          · subst hp
            exact ⟨hk, rfl⟩
          · exact (ih.mp ⟨l2, hl2⟩) p hp
        · intro hall
          obtain ⟨l2, hl2⟩ := ih.mpr (fun p hp => hall p (List.mem_cons_of_mem _ hp))
          exact ⟨(k, f) :: l2, by simp [hl2, Except.map]⟩
      | notFn w =>
        simp only [validateFns, if_pos hk]
        constructor
        · rintro ⟨l, hl⟩
          exact absurd hl (by simp)
        · intro hall
          have := (hall (k, StageFnVal.notFn w) (List.mem_cons_self _ _)).2
          simp [StageFnVal.isFn] at this
    · simp only [validateFns, if_neg hk]
      constructor
      · rintro ⟨l, hl⟩
        exact absurd hl (by simp)
      · intro hall
        exact absurd (hall (k, v) (List.mem_cons_self _ _)).1 hk

theorem construct_ok_inversion (oc : Option Config) (s : MICTState)
    (h : construct oc = Except.ok s) :
    ∃ cfg l fns, oc = some cfg ∧ cfg.stages = some l ∧ l.isEmpty = false ∧
      cfg.updateUIIsFunction = true ∧
      validateFns l (cfg.stageFunctions.getD []) = Except.ok fns ∧
      s = { stages := l
            currentState := cfg.initialState
            currentStageIndex := 0
            stageFunctions := fns
            intervalId := none
            interval := cfg.interval.getD 0
            errorHandler := cfg.errorHandler
            previousState := JSValue.null } := by
  cases oc with
  | none => simp [construct] at h
  | some cfg =>
    cases hst : cfg.stages with
    | none => simp [construct, hst] at h
    | some l =>
      by_cases hemp : l.isEmpty
      · simp [construct, hst, hemp] at h
      · by_cases hui : cfg.updateUIIsFunction = false
        · simp [construct, hst, hemp, hui] at h
        · cases hv : validateFns l (cfg.stageFunctions.getD []) with
          | error msg => simp [construct, hst, hemp, hui, hv, Except.map] at h
          | ok fns =>
            refine ⟨cfg, l, fns, rfl, hst, by simpa using hemp,
              by simpa using hui, hv, ?_⟩
            simp only [construct, hst, Bool.not_eq_true] at h
            rw [if_neg hemp, if_neg hui, hv] at h
            simpa [Except.map] using h.symm

theorem advanceIndex_stages (s : MICTState) :
    (advanceIndex s).1.stages = s.stages := rfl

theorem nextStage_stages (s : MICTState) : (nextStage s).1.stages = s.stages := by
  cases hf : lookupFn s.stageFunctions s.getCurrentStage with
  | none => rw [nextStage_none_eq s hf, advanceIndex_stages]
  | some f =>
    cases hv : f s.currentState with
    | error e => rw [nextStage_error_eq s f e hf hv]
    | ok v => rw [nextStage_ok_eq s f v hf hv, advanceIndex_stages]

theorem nextStage_index_lt (s : MICTState)
    (h : s.currentStageIndex < s.stages.length) :
    (nextStage s).1.currentStageIndex < (nextStage s).1.stages.length := by
  have hpos : 0 < s.stages.length := Nat.lt_of_le_of_lt (Nat.zero_le _) h
  cases hf : lookupFn s.stageFunctions s.getCurrentStage with
  | none =>
    rw [nextStage_none_eq s hf]
    exact Nat.mod_lt _ hpos
  | some f =>
    cases hv : f s.currentState with
    | error e =>
      rw [nextStage_error_eq s f e hf hv]
      exact h
    | ok v =>
      rw [nextStage_ok_eq s f v hf hv]
      exact Nat.mod_lt _ hpos

theorem reset_eq (s : MICTState) :
    reset s =
      ({ s with currentStageIndex := 0
                currentState := JSValue.undefined
                previousState := JSValue.null
                intervalId := none },
       (if s.intervalId.isSome then [Event.clearIntervalCall] else []) ++
         [Event.updateUI JSValue.undefined (s.stages.getD 0 "")]) := by
  obtain ⟨stages, cs, idx, fns, iv, itv, eh, ps⟩ := s
  cases iv <;> rfl

theorem applyOp_invariant (s : MICTState) (op : Op)
    (h : s.currentStageIndex < s.stages.length) :
    (applyOp s op).currentStageIndex < (applyOp s op).stages.length := by
  cases op with
  | advance => exact nextStage_index_lt s h
  | setStateOp v => exact h
  | resetOp =>
    show (reset s).1.currentStageIndex < (reset s).1.stages.length
    rw [reset_eq]
    exact Nat.lt_of_le_of_lt (Nat.zero_le _) h

theorem runOps_invariant (ops : List Op) :
    ∀ s : MICTState, s.currentStageIndex < s.stages.length →
      (runOps s ops).currentStageIndex < (runOps s ops).stages.length := by
  induction ops with
  | nil => exact fun s h => h
  | cons op rest ih =>
    intro s h
    exact ih (applyOp s op) (applyOp_invariant s op h)

theorem startCycle_eq (s : MICTState) (i : Option Int) :
    startCycle s i =
      (if jsOrInterval i s.interval = 0 then
        ({ s with intervalId := none },
         (if s.intervalId.isSome then
            [Event.warnAlreadyRunning, Event.clearIntervalCall] else []) ++
           [Event.warnNoInterval])
      else
        ({ s with intervalId := some (jsOrInterval i s.interval) },
         (if s.intervalId.isSome then
            [Event.warnAlreadyRunning, Event.clearIntervalCall] else []) ++
           [Event.setIntervalCall (jsOrInterval i s.interval)])) := by
  obtain ⟨stages, cs, idx, fns, iv, itv, eh, ps⟩ := s
  cases iv with
  | none =>
    by_cases h0 : jsOrInterval i itv = 0 <;> simp [startCycle, stopCycle, h0]
  | some old =>
    by_cases h0 : jsOrInterval i itv = 0 <;> simp [startCycle, stopCycle, h0]

/-- Claim C1: `reset()` is claimed to stop any active timer, set the index
to `0`, restore `currentState` to the configured initial state, clear
`previousState`, and notify the observer once.  The code instead assigns
`this.initialState`, a property the constructor never stores (it stores
the configured initial state only in `this.currentState`), so the restored
state is `undefined` rather than the configured initial state: for the
engine built from `cfgC1`, whose configured initial state is `42`, one
`reset()` leaves `currentState = undefined`. -/
theorem reset_loses_initial_state :
    construct (some cfgC1) = Except.ok engineC1 ∧
    cfgC1.initialState = JSValue.num 42 ∧
    (reset engineC1).1.currentState = JSValue.undefined ∧
    JSValue.undefined ≠ JSValue.num 42 ∧
    (reset engineC1).1.currentStageIndex = 0 ∧
    (reset engineC1).1.previousState = JSValue.null ∧
    (reset engineC1).1.intervalId = none ∧
    (reset engineC1).2 = [Event.updateUI JSValue.undefined "Mapping"] :=
  ⟨rfl, rfl, rfl, by decide, rfl, rfl, rfl, rfl⟩

/-- Claim C2: when the current stage handler raises, `advance()` leaves
the stage index unchanged and emits no observer call; the configured
`errorHandler` is invoked with the error, the current stage name and the
current state (or a `console.error` diagnostic is emitted when none is
configured); repeated `advance()` calls against an always-failing stage
keep the index parked with zero observer invocations, and the error never
propagates (the embedding of `nextStage` is a total function: the `catch`
swallows the exception). -/
theorem nextStage_error_containment (s : MICTState) (f : Handler)
    (hf : lookupFn s.stageFunctions s.getCurrentStage = some f)
    (hfail : ∀ v, ∃ e, f v = Except.error e) :
    (∀ e, f s.currentState = Except.error e →
      (nextStage s).1.currentStageIndex = s.currentStageIndex ∧
      (nextStage s).2 = (if s.errorHandler then
          [Event.errorHandlerCall e s.getCurrentStage s.currentState]
        else
          [Event.consoleError s.getCurrentStage e])) ∧
    (∀ n, (iterateAdvance s n).1.currentStageIndex = s.currentStageIndex ∧
      ∀ ev ∈ (iterateAdvance s n).2, ev.isUpdateUI = false) := by
  obtain ⟨e0, he0⟩ := hfail s.currentState
  have hstep : nextStage s = (s, if s.errorHandler then
      [Event.errorHandlerCall e0 s.getCurrentStage s.currentState]
    else
      [Event.consoleError s.getCurrentStage e0]) :=
    nextStage_error_eq s f e0 hf he0
  have hevs0 : ∀ ev ∈ (if s.errorHandler then
      [Event.errorHandlerCall e0 s.getCurrentStage s.currentState]
    else
      [Event.consoleError s.getCurrentStage e0]), ev.isUpdateUI = false := by
    by_cases heh : s.errorHandler <;> simp [heh, Event.isUpdateUI]
  constructor
  · intro e he
    rw [nextStage_error_eq s f e hf he]
    exact ⟨rfl, rfl⟩
  · intro n
    induction n with
    | zero =>
      refine ⟨rfl, ?_⟩
      intro ev hev
      simp [iterateAdvance] at hev
    | succ n ih =>
      constructor
      · show (iterateAdvance s (n + 1)).1.currentStageIndex = s.currentStageIndex
        simp only [iterateAdvance, hstep]
        exact ih.1
      · show ∀ ev ∈ (iterateAdvance s (n + 1)).2, ev.isUpdateUI = false
        simp only [iterateAdvance, hstep]
        intro ev hev
        rcases List.mem_append.mp hev with hev | hev
        · exact hevs0 ev hev
        · exact ih.2 ev hev

/-- Witness for C2: five advances on a concrete engine parked on its
always-failing `Iteration` stage keep the index at `1` and never invoke
the observer. -/
theorem nextStage_error_containment_witness :
    (iterateAdvance engFail 5).1.currentStageIndex = engFail.currentStageIndex ∧
    ∀ ev ∈ (iterateAdvance engFail 5).2, ev.isUpdateUI = false :=
  (nextStage_error_containment engFail failHandler rfl
    (fun _ => ⟨JSValue.str "boom", rfl⟩)).2 5

/-- Claim C3: when the current stage handler returns successfully,
`previousState` is set to the pre-call state; the state is replaced by
the returned value when that value is defined and left unchanged when the
handler returns `undefined`; the index then advances by one modulo the
stage count and the observer is invoked with the resulting state and the
new current stage name. -/
theorem nextStage_success_spec (s : MICTState) (f : Handler) (v : JSValue)
    (hf : lookupFn s.stageFunctions s.getCurrentStage = some f)
    (hv : f s.currentState = Except.ok v) :
    (nextStage s).1.previousState = s.currentState ∧
    (nextStage s).1.currentState =
      (if v = JSValue.undefined then s.currentState else v) ∧
    (nextStage s).1.currentStageIndex =
      (s.currentStageIndex + 1) % s.stages.length ∧
    (nextStage s).2 =
      [Event.updateUI (if v = JSValue.undefined then s.currentState else v)
        (s.stages.getD ((s.currentStageIndex + 1) % s.stages.length) "")] := by
  rw [nextStage_ok_eq s f v hf hv]
  refine ⟨rfl, ?_, rfl, ?_⟩
  · by_cases hu : v = JSValue.undefined <;> simp [advanceIndex, hu]
  · by_cases hu : v = JSValue.undefined <;>
      simp [advanceIndex, MICTState.getCurrentStage, hu]

/-- Witness for C3: a concrete engine whose `Mapping` handler returns `7`
ends with `previousState = 0`, `currentState = 7`, index `1`, and one
observer call with the new state and stage `Iteration`. -/
theorem nextStage_success_spec_witness :
    (nextStage engOk).1.previousState = engOk.currentState ∧
    (nextStage engOk).1.currentState = JSValue.num 7 ∧
    (nextStage engOk).1.currentStageIndex = 1 ∧
    (nextStage engOk).2 = [Event.updateUI (JSValue.num 7) "Iteration"] := by
  have h := nextStage_success_spec engOk okHandler (JSValue.num 7) rfl rfl
  simpa using h

/-- Claim C4: construction fails exactly when the configuration is
null / not an object, `stages` is missing or not a non-empty array, the
observer is not callable, some `stageFunctions` key is not a member of
`stages`, or some `stageFunctions` value is not callable; and every
successful construction starts at index `0` with `currentState` equal to
the configured initial state, no previous state and no active timer. -/
theorem construct_spec (oc : Option Config) :
    ((∃ s, construct oc = Except.ok s) ↔ specValidConfig oc) ∧
    (∀ cfg s, oc = some cfg → construct oc = Except.ok s →
      s.currentStageIndex = 0 ∧ s.currentState = cfg.initialState ∧
      s.previousState = JSValue.null ∧ s.intervalId = none) := by
  constructor
  · constructor
    · rintro ⟨s, hs⟩
      obtain ⟨cfg, l, fns, hoc, hst, hemp, hui, hv, -⟩ :=
        construct_ok_inversion oc s hs
      subst hoc
      refine ⟨l, hst, ?_, hui, ?_⟩
      · intro hnil
        subst hnil
        simp [List.isEmpty] at hemp
      · exact (validateFns_ok_iff l _).mp ⟨fns, hv⟩
    · intro hvalid
      cases oc with
      | none => simp [specValidConfig] at hvalid
      | some cfg =>
        obtain ⟨l, hst, hne, hui, hall⟩ := hvalid
        obtain ⟨fns, hfns⟩ := (validateFns_ok_iff l _).mpr hall
        have hemp : l.isEmpty = false := by
          cases l with
          | nil => exact absurd rfl hne
          | cons a t => rfl
        refine ⟨{ stages := l
                  currentState := cfg.initialState
                  currentStageIndex := 0
                  stageFunctions := fns
                  intervalId := none
                  interval := cfg.interval.getD 0
                  errorHandler := cfg.errorHandler
                  previousState := JSValue.null }, ?_⟩
        simp only [construct, hst]
        rw [if_neg (by simp [hemp]), if_neg (by simp [hui]), hfns]
        rfl
  · intro cfg s hoc hs
    obtain ⟨cfg2, l, fns, hoc2, -, -, -, -, hrec⟩ :=
      construct_ok_inversion oc s hs
    rw [hoc] at hoc2
    injection hoc2 with hcfg
    subst hcfg
    subst hrec
    exact ⟨rfl, rfl, rfl, rfl⟩

/-- Witness for C4: the concrete valid configuration `cfgC4` constructs
successfully into `engineC4`, which starts at index `0`, state equal to
the configured initial state, previous state `null` and no timer. -/
theorem construct_spec_witness :
    engineC4.currentStageIndex = 0 ∧
    engineC4.currentState = cfgC4.initialState ∧
    engineC4.previousState = JSValue.null ∧
    engineC4.intervalId = none :=
  (construct_spec (some cfgC4)).2 cfgC4 engineC4 rfl rfl

/-- Counterexample to Claim C5 as stated: with a default interval of `0`,
`startCycle(-5)` resolves an interval that is not positive, so the claim
requires scheduling to be refused with no timer started; the code tests
only JavaScript falsiness (`!intervalToUse`), a negative interval is
truthy, and a timer with period `-5` is created. -/
theorem startCycle_negative_counterexample :
    engIdle.interval = 0 ∧
    ¬ (0 : Int) < (-5) ∧
    (startCycle engIdle (some (-5))).1.intervalId = some (-5) ∧
    (startCycle engIdle (some (-5))).2 = [Event.setIntervalCall (-5)] :=
  ⟨rfl, by decide, rfl, rfl⟩

/-- Claim C5 as amended: the interval used is `intervalMs` when given and
nonzero, else the configured default; scheduling is refused (with a
diagnostic and no timer started) exactly when that resolved interval is
zero or absent — not merely non-positive, since a negative interval is
truthy and does start a timer; when a timer is already active it is
stopped (with a warning) before any new timer is created, as the emitted
event order shows. -/
theorem startCycle_spec (s : MICTState) (i : Option Int) :
    (jsOrInterval i s.interval = 0 →
      (startCycle s i).1.intervalId = none ∧
      Event.warnNoInterval ∈ (startCycle s i).2) ∧
    (jsOrInterval i s.interval ≠ 0 →
      (startCycle s i).1.intervalId = some (jsOrInterval i s.interval)) ∧
    (s.intervalId = none →
      (startCycle s i).2 =
        (if jsOrInterval i s.interval = 0 then [Event.warnNoInterval]
         else [Event.setIntervalCall (jsOrInterval i s.interval)])) ∧
    (∀ old, s.intervalId = some old →
      (startCycle s i).2 =
        Event.warnAlreadyRunning :: Event.clearIntervalCall ::
          (if jsOrInterval i s.interval = 0 then [Event.warnNoInterval]
           else [Event.setIntervalCall (jsOrInterval i s.interval)])) := by
  rw [startCycle_eq]
  by_cases h0 : jsOrInterval i s.interval = 0 <;>
    cases hiv : s.intervalId <;>
      simp [h0, hiv]

/-- Witness for C5 (amended): restarting a running engine with `50`
stops the old timer first and creates a timer of period `50`. -/
theorem startCycle_spec_witness :
    (startCycle engRunning (some 50)).1.intervalId = some 50 ∧
    (startCycle engRunning (some 50)).2 =
      [Event.warnAlreadyRunning, Event.clearIntervalCall,
       Event.setIntervalCall 50] := by
  have h2 := (startCycle_spec engRunning (some 50)).2.1 (by decide)
  have h4 := (startCycle_spec engRunning (some 50)).2.2.2 100 rfl
  exact ⟨h2, h4⟩

/-- Claim C6: for every validly constructed engine and every finite
sequence of advance, setState and reset operations, the current stage
index stays a valid index into `stages`. -/
theorem stage_index_in_range (oc : Option Config) (s0 : MICTState)
    (h : construct oc = Except.ok s0) (ops : List Op) :
    (runOps s0 ops).getCurrentStageIndex < (runOps s0 ops).stages.length := by
  obtain ⟨cfg, l, fns, -, -, hemp, -, -, hs⟩ := construct_ok_inversion oc s0 h
  have h0 : s0.currentStageIndex < s0.stages.length := by
    subst hs
    cases l with
    | nil => simp [List.isEmpty] at hemp
    | cons a t => simp
  exact runOps_invariant ops s0 h0

/-- Witness for C6: a concrete mixed operation sequence on the engine
constructed from `cfgC6` ends with the index still in range. -/
theorem stage_index_in_range_witness :
    (runOps engineC6 opsC6).getCurrentStageIndex <
      (runOps engineC6 opsC6).stages.length :=
  stage_index_in_range (some cfgC6) engineC6 rfl opsC6

/-- Claim C7: `setState(v)` replaces `currentState` with `v`, leaves
`previousState` and the stage index unchanged, and invokes the observer
exactly once with the new state and the unchanged current stage name. -/
theorem setState_spec (s : MICTState) (v : JSValue) :
    (setState s v).1.currentState = v ∧
    (setState s v).1.previousState = s.previousState ∧
    (setState s v).1.currentStageIndex = s.currentStageIndex ∧
    (setState s v).2 = [Event.updateUI v s.getCurrentStage] :=
  ⟨rfl, rfl, rfl, rfl⟩

/-- Claim C8 counter-evidence: `nextStage()` is fully synchronous and
never awaits.  For a concrete engine whose `Mapping` handler returns a
pending Promise object, the call treats the promise as an ordinary
defined replacement value: the stage index moves forward immediately, the
Promise object itself becomes `currentState`, and the observer fires with
the Promise object as the state — the advance does not wait for the
handler's asynchronous completion, and a later rejection is never routed
to the error-handling rules (there is no code path distinguishing
promises). -/
theorem nextStage_no_await :
    lookupFn engPromise.stageFunctions engPromise.getCurrentStage =
      some promiseHandler ∧
    promiseHandler engPromise.currentState =
      Except.ok (JSValue.promiseObj 0) ∧
    (nextStage engPromise).1.currentStageIndex =
      engPromise.currentStageIndex + 1 ∧
    (nextStage engPromise).1.currentState = JSValue.promiseObj 0 ∧
    (nextStage engPromise).2 =
      [Event.updateUI (JSValue.promiseObj 0) "Iteration"] :=
  ⟨rfl, rfl, rfl, rfl, rfl⟩

/-- Claim C9: when the current stage has no handler, `advance()` leaves
`currentState` (and `previousState`) unchanged, rotates the index forward
by one modulo the stage count, and invokes the observer with the
unchanged state and the new stage name. -/
theorem nextStage_no_handler_spec (s : MICTState)
    (hf : lookupFn s.stageFunctions s.getCurrentStage = none) :
    (nextStage s).1.currentState = s.currentState ∧
    (nextStage s).1.previousState = s.previousState ∧
    (nextStage s).1.currentStageIndex =
      (s.currentStageIndex + 1) % s.stages.length ∧
    (nextStage s).2 =
      [Event.updateUI s.currentState
        (s.stages.getD ((s.currentStageIndex + 1) % s.stages.length) "")] := by
  rw [nextStage_none_eq s hf]
  exact ⟨rfl, rfl, rfl, rfl⟩

/-- Witness for C9: a concrete engine whose current stage `Mapping` has
no handler keeps its state `5` and rotates the index to `1`. -/
theorem nextStage_no_handler_spec_witness :
    (nextStage engNoHandler).1.currentState = engNoHandler.currentState ∧
    (nextStage engNoHandler).1.previousState = engNoHandler.previousState ∧
    (nextStage engNoHandler).1.currentStageIndex = 1 ∧
    (nextStage engNoHandler).2 =
      [Event.updateUI (JSValue.num 5) "Iteration"] := by
  have h := nextStage_no_handler_spec engNoHandler rfl
  simpa using h

/-- Claim C10: a failed advance is fully atomic.  When the current stage
handler raises, the `previousState = currentState` assignment is never
reached (it textually follows the handler call inside `try`), so the
whole runtime state — index, `currentState` and `previousState` — is
exactly the pre-call state. -/
theorem nextStage_error_atomic (s : MICTState) (f : Handler) (e : JSValue)
    (hf : lookupFn s.stageFunctions s.getCurrentStage = some f)
    (he : f s.currentState = Except.error e) :
    (nextStage s).1 = s ∧
    (nextStage s).1.currentState = s.currentState ∧
    (nextStage s).1.previousState = s.previousState ∧
    (nextStage s).1.currentStageIndex = s.currentStageIndex := by
  rw [nextStage_error_eq s f e hf he]
  exact ⟨rfl, rfl, rfl, rfl⟩

/-- Witness for C10: on the concrete always-failing engine, one failed
advance returns exactly the pre-call engine state. -/
theorem nextStage_error_atomic_witness :
    (nextStage engFail).1 = engFail ∧
    (nextStage engFail).1.currentState = engFail.currentState ∧
    (nextStage engFail).1.previousState = engFail.previousState ∧
    (nextStage engFail).1.currentStageIndex = engFail.currentStageIndex :=
  nextStage_error_atomic engFail failHandler (JSValue.str "boom") rfl rfl
